import Mathlib

/-!
# StorySpark — verification of the wizard / generation-orchestration core

Shallow embedding of the StorySpark repository (a React wizard that turns a
story idea into scenes, paired prompts, and AI-generated candidate images).

The embedding follows the source files:
* `src/types.ts` — the `StoryScene` data model;
* `src/unnamed/part_002` (the `StoryIdeaGenerator` component) — reference-image
  upload validation (`handleFile`) and scene synthesis from the structured
  response (`handleGenerateStoryAndPrompts`);
* `src/components/StoryGenerator.tsx` — the scene prompt picker
  (`handleSelectionChange`, `handleFinishSelectionClick`);
* `src/App.tsx` — the root controller (`handleFinishSelection`,
  `handleReferenceImageChange`, `handleEditImageFinish`);
* `src/components/PromptOverview.tsx` — the overview / image-generation
  orchestrator, modelled as an event-driven state machine whose events are the
  component's handlers.  JavaScript runs the handlers on a single-threaded
  event loop and the UI disables (or covers with a modal) the controls that
  would interleave, so each handler together with the completion of the calls
  it awaits is modelled as one atomic step; the outcomes of the external image
  calls are free parameters of the corresponding event.

JS objects keyed by scene number (`Record<number, string[]>` etc.) are
modelled as association lists with set/delete/lookup mirroring JS object
semantics (set replaces the value of an existing key in place, otherwise
appends; delete removes the key).
-/

/-! ## Association-list model of a JS object keyed by scene number -/
/-- Lookup of a key in a JS-object-like association list. -/
def omLookup {α : Type} : List (Nat × α) → Nat → Option α
  | [], _ => none
  | e :: t, k => if e.1 = k then some e.2 else omLookup t k

/-- JS object property set: replace the value of an existing key in place,
otherwise append the new key at the end. -/
def omInsert {α : Type} : List (Nat × α) → Nat → α → List (Nat × α)
  | [], k, v => [(k, v)]
  | e :: t, k, v => if e.1 = k then (k, v) :: t else e :: omInsert t k v

/-- JS `delete obj[k]`: remove the key. -/
def omErase {α : Type} : List (Nat × α) → Nat → List (Nat × α)
  | [], _ => []
  | e :: t, k => if e.1 = k then omErase t k else e :: omErase t k

/-- `Object.keys`. -/
def omKeys {α : Type} (m : List (Nat × α)) : List Nat :=
  m.map fun e => e.1

/-! ## Data model (`src/types.ts`) -/
/-- `PromptVersion` from `src/types.ts`: a bilingual prompt pair. -/
structure PromptVersion where
  chinese_prompt : String
  english_prompt : String
deriving DecidableEq

/-- `GeneratedPrompt` from `src/types.ts` has exactly the same shape as
`PromptVersion`; TypeScript structural typing makes the two interchangeable. -/
abbrev GeneratedPrompt := PromptVersion

/-- `StoryScene` from `src/types.ts`.  The two `image_prompts` variants and the
two `image_to_video_prompts` variants are tuples in TypeScript, modelled as
pairs (so a scene structurally always has exactly two variants per axis).  The
selection indices have TypeScript type `0 | 1`; they are modelled as `Nat`,
and the `{0,1}` range is proved as an invariant of the picker. -/
structure StoryScene where
  id : Int
  scene_number : Int
  story_content : String
  image_prompts : PromptVersion × PromptVersion
  image_to_video_prompts : PromptVersion × PromptVersion
  selected_image_prompt_index : Nat
  selected_video_prompt_index : Nat
deriving DecidableEq

/-- TypeScript tuple indexing `pair[i]` with an index of type `0 | 1`. -/
def pairGet (p : PromptVersion × PromptVersion) (i : Nat) : PromptVersion :=
  if i = 0 then p.1 else p.2

/-! ## Scene synthesis from the structured-generation response
(`handleGenerateStoryAndPrompts` in `src/unnamed/part_002`, lines 521-528) -/
/-- One entry of the parsed JSON array returned by the structured-generation
call.  A prompt-variant field is `none` when the JSON value is not an array
(`Array.isArray` fails, which also covers an absent field); an element of the
list is `none` when the JSON array slot holds a null/falsy value (which the
code replaces through `imagePrompts[i] || fallback`). -/
structure RawScene where
  scene_number : Int
  story_content : String
  image_prompts : Option (List (Option PromptVersion))
  image_to_video_prompts : Option (List (Option PromptVersion))
deriving DecidableEq

/-- The visible placeholder substituted for a missing prompt variant. -/
def missingPrompt : PromptVersion :=
  { chinese_prompt := "錯誤: 缺少提示", english_prompt := "Error: Missing prompt" }

/-- `Array.isArray(x) ? x : []`. -/
def toArrayOrEmpty (f : Option (List (Option PromptVersion))) :
    List (Option PromptVersion) :=
  f.getD []

/-- `arr[i] || fallback`: the element when present and non-null, otherwise the
placeholder. -/
def promptVersionAt (l : List (Option PromptVersion)) (i : Nat) : PromptVersion :=
  match l.get? i with
  | some (some p) => p
  | _ => missingPrompt

/-- The body of `parsedScenes.map((scene, index) => ...)`: synthesize one
`StoryScene` from one response entry.  `now` models `Date.now()`. -/
def sceneWithState (now : Int) (index : Nat) (scene : RawScene) : StoryScene :=
  let imagePrompts := toArrayOrEmpty scene.image_prompts
  let videoPrompts := toArrayOrEmpty scene.image_to_video_prompts
  { id := now + index
    scene_number := scene.scene_number
    story_content := scene.story_content
    image_prompts := (promptVersionAt imagePrompts 0, promptVersionAt imagePrompts 1)
    image_to_video_prompts := (promptVersionAt videoPrompts 0, promptVersionAt videoPrompts 1)
    selected_image_prompt_index := 0
    selected_video_prompt_index := 0 }

/-- Index-threaded recursion modelling `parsedScenes.map((scene, index) => ...)`. -/
def scenesWithStateAux (now : Int) (index : Nat) : List RawScene → List StoryScene
  | [] => []
  | r :: t => sceneWithState now index r :: scenesWithStateAux now (index + 1) t

/-- `scenesWithState` from `handleGenerateStoryAndPrompts`: one synthesized
scene per parsed response entry. -/
def scenesWithState (now : Int) (parsedScenes : List RawScene) : List StoryScene :=
  scenesWithStateAux now 0 parsedScenes

/-- The image variant of a scene at a `0 | 1` index. -/
def imageVariant (s : StoryScene) (k : Nat) : PromptVersion :=
  pairGet s.image_prompts k

/-- The video variant of a scene at a `0 | 1` index. -/
def videoVariant (s : StoryScene) (k : Nat) : PromptVersion :=
  pairGet s.image_to_video_prompts k

/-- Slot `k` of a prompt-variant response field is missing: the field is not an
array, the array is too short, or the slot holds a null value. -/
def slotMissing (f : Option (List (Option PromptVersion))) (k : Nat) : Prop :=
  (toArrayOrEmpty f).get? k = none ∨ (toArrayOrEmpty f).get? k = some none

/-! ## Reference-image upload validation
(`handleFile` in `src/unnamed/part_002`, lines 333-355; the overview's
`handleFileChange` in `src/components/PromptOverview.tsx`, lines 57-80,
performs the same two checks with `alert` instead of `setError`) -/
/-- The data of an uploaded `File` that the validation inspects. -/
structure UploadFile where
  mimeType : String
  size : Nat
deriving DecidableEq

/-- The validation error messages of the intake form. -/
inductive FileError where
  | invalidImage
  | fileSize
  | fileRead
deriving DecidableEq

/-- The part of the intake state that `handleFile` touches. -/
structure IntakeState where
  referenceImage : Option String
  hasReferenceImage : Bool
  error : Option FileError
deriving DecidableEq

/-- JavaScript's `str.startsWith(p)`, modelled on the character lists (the
same predicate as Lean's `String.startsWith`, stated in a kernel-computable
form). -/
def stringStartsWith (s p : String) : Bool :=
  p.data.isPrefixOf s.data

/-- `handleFile` accepts the file (reaches the `FileReader` branch) iff the
MIME type starts with `image/` and the size is at most 10MB. -/
def handleFileAccepts (f : UploadFile) : Bool :=
  stringStartsWith f.mimeType "image/" && f.size ≤ 10 * 1024 * 1024

/-- `handleFile` from the intake form.  `readResult` is the outcome of the
asynchronous `FileReader` (`some dataUrl` on `onload` with a string result,
`none` on `onerror`); it is only consulted when the file passes both checks,
and the function issues no network call in any branch. -/
def handleFile (f : UploadFile) (s : IntakeState) (readResult : Option String) :
    IntakeState :=
  if ¬ stringStartsWith f.mimeType "image/" then
    { s with error := some FileError.invalidImage }
  else if f.size > 10 * 1024 * 1024 then
    { s with error := some FileError.fileSize }
  else
    match readResult with
    | some dataUrl =>
        { referenceImage := some dataUrl, hasReferenceImage := true, error := none }
    | none => { s with error := some FileError.fileRead }

/-- The acceptance condition of the overview's `handleFileChange`
(`PromptOverview.tsx`): textually the same two checks as `handleFile`. -/
def overviewFileChangeAccepts (f : UploadFile) : Bool :=
  stringStartsWith f.mimeType "image/" && f.size ≤ 10 * 1024 * 1024

/-! ## Scene prompt picker (`src/components/StoryGenerator.tsx`) -/
/-- The `'image' | 'video'` axis argument of `handleSelectionChange`. -/
inductive PromptType where
  | image
  | video
deriving DecidableEq

/-- The per-scene update performed by `handleSelectionChange` on the scene at
`currentSceneIndex`. -/
def updateSelection (ptype : PromptType) (index : Nat) (s : StoryScene) : StoryScene :=
  match ptype with
  | PromptType.image => { s with selected_image_prompt_index := index }
  | PromptType.video => { s with selected_video_prompt_index := index }

/-- Index-threaded recursion modelling `scenes.map((s, i) => ...)` in
`handleSelectionChange`. -/
def handleSelectionChangeAux (cur : Nat) (ptype : PromptType) (index : Nat) :
    Nat → List StoryScene → List StoryScene
  | _, [] => []
  | i, s :: t =>
      (if i = cur then updateSelection ptype index s else s) ::
        handleSelectionChangeAux cur ptype index (i + 1) t

/-- `handleSelectionChange` from `StoryGenerator.tsx` (lines 51-62): set one
selection index of the scene at `currentSceneIndex`, leave all else alone.
The `index` argument has TypeScript type `0 | 1`. -/
def handleSelectionChange (scenes : List StoryScene) (cur : Nat)
    (ptype : PromptType) (index : Nat) : List StoryScene :=
  handleSelectionChangeAux cur ptype index 0 scenes

/-- The reachable states of the picker's scene list: it starts as the
`scenesWithState` synthesis handed over by the intake form
(`initialScenes`), and is mutated only by `handleSelectionChange`, whose
`index` argument has TypeScript type `0 | 1`. -/
inductive PickerReachable : List StoryScene → Prop where
  | init (now : Int) (raws : List RawScene) :
      PickerReachable (scenesWithState now raws)
  | select (scenes : List StoryScene) (cur : Nat) (ptype : PromptType) (index : Nat) :
      PickerReachable scenes → index = 0 ∨ index = 1 →
      PickerReachable (handleSelectionChange scenes cur ptype index)

/-- `finalImagePrompts` from `handleFinishSelectionClick` (lines 64-73). -/
def finalImagePrompts (scenes : List StoryScene) : List GeneratedPrompt :=
  scenes.map fun scene => pairGet scene.image_prompts scene.selected_image_prompt_index

/-- `finalVideoPrompts` from `handleFinishSelectionClick`. -/
def finalVideoPrompts (scenes : List StoryScene) : List GeneratedPrompt :=
  scenes.map fun scene =>
    pairGet scene.image_to_video_prompts scene.selected_video_prompt_index

/-- `finalStoryContents` from `handleFinishSelectionClick`. -/
def finalStoryContents (scenes : List StoryScene) : List String :=
  scenes.map fun scene => scene.story_content

/-! ## Root controller (`src/App.tsx`) -/
/-- `SceneOverview`: the overview entry built by the root controller's
`handleFinishSelection` (`src/App.tsx`, lines 45-54). -/
structure SceneOverview where
  sceneNumber : Nat
  storyContent : String
  imagePrompt : String
  videoPrompt : String
deriving DecidableEq

/-- Index-threaded recursion modelling `imagePrompts.map((prompt, index) => ...)`
in `handleFinishSelection`.  The parallel arrays handed over by the picker have
equal length, so the `index` accesses into `storyContents` and `videoPrompts`
are in range; the `getD` defaults are never reached for such inputs. -/
def handleFinishSelectionAux (videoPrompts : List GeneratedPrompt)
    (storyContents : List String) (index : Nat) :
    List GeneratedPrompt → List SceneOverview
  | [] => []
  | prompt :: t =>
      { sceneNumber := index + 1
        storyContent := (storyContents.get? index).getD ""
        imagePrompt := prompt.english_prompt
        videoPrompt := ((videoPrompts.get? index).map
          (fun p => p.english_prompt)).getD "" } ::
        handleFinishSelectionAux videoPrompts storyContents (index + 1) t

/-- `handleFinishSelection` from `src/App.tsx`: project the three parallel
arrays into the overview entries, numbering them positionally (`index + 1`). -/
def handleFinishSelection (imagePrompts videoPrompts : List GeneratedPrompt)
    (storyContents : List String) : List SceneOverview :=
  handleFinishSelectionAux videoPrompts storyContents 0 imagePrompts

/-- The overview data obtained from a picker scene list through
`handleFinishSelectionClick` followed by `handleFinishSelection`. -/
def overviewOf (scenes : List StoryScene) : List SceneOverview :=
  handleFinishSelection (finalImagePrompts scenes) (finalVideoPrompts scenes)
    (finalStoryContents scenes)

/-- The file name used by `handleDownloadAll` (`PromptOverview.tsx`,
lines 179-188) for the selected image of a scene number. -/
def downloadFileName (sceneNumber : Nat) : String :=
  "StorySpark-Scene-" ++ toString sceneNumber ++ ".png"

/-- `handleDownloadAll`: one client-side save per entry of `selectedImages`,
named by the entry's scene number. -/
def downloadAllFileNames (selectedImages : List (Nat × String)) : List String :=
  selectedImages.map fun e => downloadFileName e.1

/-! ## Overview / image-generation orchestrator
(`src/components/PromptOverview.tsx`)

The component state is modelled by `OState`; each handler (together with the
completion of the image calls it awaits) is one event.  The outcome of each
external image call is a free parameter of the event (`some dataUrl` when the
call returned a usable inline image, `none` when it failed or returned no
image).  The network calls a handler issues are emitted alongside the new
state: the emission is a list of batches, where the calls inside one batch are
issued in parallel (`Promise.all`) and consecutive batches are separated by an
`await` (the next batch starts only after the previous completed). -/
/-- The component state of `PromptOverview` (plus the reference image, which
lives in the root controller's `storyConfig` and is passed down as a prop). -/
structure OState where
  refImage : Option String
  generatedImages : List (Nat × List String)
  selectedImages : List (Nat × String)
  loadingScenes : List (Nat × Bool)
  isSequentialGenerating : Bool
  currentSequentialScene : Option Nat
  sequentialImages : List String
  tempSelectedImage : Option String
  isSequentialSceneLoading : Bool
deriving DecidableEq

/-- The freshly mounted overview state: `useState` initialisers. -/
def initOState (r0 : Option String) : OState :=
  { refImage := r0
    generatedImages := []
    selectedImages := []
    loadingScenes := []
    isSequentialGenerating := false
    currentSequentialScene := none
    sequentialImages := []
    tempSelectedImage := none
    isSequentialSceneLoading := false }

/-- One call to `generateImageForScene`, as it reaches the network: the scene
it is generated for, the prompt, the mandatory reference image and the
optional previous-scene continuity image. -/
structure GenCall where
  sceneNumber : Nat
  prompt : String
  referenceImage : String
  previousImage : Option String
deriving DecidableEq

/-- The network traffic of one invocation of `generateImageForScene`: a call
reaches the network only when the API key is present (`getAi` returns an
instance) and a reference image exists (without one the non-null assertion
feeds `null` into `split`, the exception is caught, and `null` is returned
with no call made). -/
def imageCallsOnce (apiKey : Bool) (refImg : Option String) (n : Nat)
    (prompt : String) (prev : Option String) : List GenCall :=
  match apiKey, refImg with
  | true, some r => [{ sceneNumber := n, prompt := prompt, referenceImage := r,
                       previousImage := prev }]
  | _, _ => []

/-- The events of the overview component. `refImageChange` covers both routes
into `handleReferenceImageChange` (the change-image upload accepted by
`handleFileChange`, and `handleEditImageFinish` with a non-null editor
result), followed by the `useEffect` on `storyConfig.referenceImage`.
`generate` is `handleGenerate` (also the per-scene body of
`handleGenerateAll`, which walks the scene list and awaits one
`handleGenerate` per scene lacking candidates). -/
inductive OEvent where
  | refImageChange (img : String)
  | generate (n : Nat) (prompt : String) (r1 r2 : Option String)
  | selectImage (n : Nat) (src : String)
  | startSequential (r1 r2 : Option String)
  | setTempSelected (src : String)
  | confirmAndNext (r1 r2 : Option String)
  | sequentialRegenerate (r1 r2 : Option String)
  | cancelSequential
deriving DecidableEq

/-- The scene numbers of the overview's scene list prop. -/
def sceneNumbers (scenes : List SceneOverview) : List Nat :=
  scenes.map fun sc => sc.sceneNumber

/-- `scenes[i].sceneNumber` (0 for an out-of-range index, which every use
below rules out). -/
def numAt (scenes : List SceneOverview) (i : Nat) : Nat :=
  match scenes.get? i with
  | some sc => sc.sceneNumber
  | none => 0

/-- `scenes[i].imagePrompt` (empty for an out-of-range index). -/
def promptAt (scenes : List SceneOverview) (i : Nat) : String :=
  match scenes.get? i with
  | some sc => sc.imagePrompt
  | none => ""

/-- `scenes.findIndex(s => s.sceneNumber === n)`, except that a missing number
yields `scenes.length` (Lean's `findIdx`) where TypeScript yields `-1`; all
uses below are under the invariant that the number is present. -/
def findSceneIdx (scenes : List SceneOverview) (n : Nat) : Nat :=
  scenes.findIdx fun sc => sc.sceneNumber == n

/-- `handleGenerate` (lines 138-163): mark the scene loading, drop its previous
selection, await the two image calls one after the other, store the non-null
results if any (otherwise throw/alert, leaving `generatedImages` alone), and
clear the loading mark. -/
def stepGenerate (apiKey : Bool) (s : OState) (n : Nat) (prompt : String)
    (r1 r2 : Option String) : OState × List (List GenCall) :=
  let s1 : OState :=
    { s with loadingScenes := omInsert s.loadingScenes n true
             selectedImages := omErase s.selectedImages n }
  let urls := [r1, r2].filterMap id
  let s2 : OState :=
    if urls.isEmpty then s1
    else { s1 with generatedImages := omInsert s1.generatedImages n urls }
  let s3 : OState := { s2 with loadingScenes := omInsert s2.loadingScenes n false }
  (s3, [imageCallsOnce apiKey s.refImage n prompt none,
        imageCallsOnce apiKey s.refImage n prompt none])

/-- `handleStartSequential` (lines 215-235): clear both per-scene maps, open
the modal on the first scene, and await the first scene's two calls issued in
parallel (`Promise.all`). -/
def stepStartSequential (apiKey : Bool) (scenes : List SceneOverview)
    (s : OState) (r1 r2 : Option String) : OState × List (List GenCall) :=
  match s.refImage with
  | none => (s, [])
  | some r =>
      let n0 := numAt scenes 0
      let p0 := promptAt scenes 0
      let batch := imageCallsOnce apiKey (some r) n0 p0 none ++
        imageCallsOnce apiKey (some r) n0 p0 none
      let s1 : OState :=
        { s with generatedImages := []
                 selectedImages := []
                 tempSelectedImage := none
                 isSequentialGenerating := true
                 currentSequentialScene := some n0
                 sequentialImages := [r1, r2].filterMap id
                 isSequentialSceneLoading := false }
      (s1, [batch])

/-- `handleConfirmAndNext` (lines 237-262): record the picked candidate as the
scene's selection (and as its sole generated candidate), then either close the
modal (last scene) or advance to the next scene and await its two calls issued
in parallel with the picked image as the continuity input. -/
def stepConfirmAndNext (apiKey : Bool) (scenes : List SceneOverview)
    (s : OState) (r1 r2 : Option String) : OState × List (List GenCall) :=
  match s.tempSelectedImage, s.currentSequentialScene with
  | some img, some c =>
      let sel1 := omInsert s.selectedImages c img
      let gen1 := omInsert s.generatedImages c [img]
      let idx := findSceneIdx scenes c
      if idx = scenes.length - 1 then
        ({ s with selectedImages := sel1
                  generatedImages := gen1
                  isSequentialGenerating := false
                  currentSequentialScene := none }, [])
      else
        let nn := numAt scenes (idx + 1)
        let np := promptAt scenes (idx + 1)
        let batch := imageCallsOnce apiKey s.refImage nn np (some img) ++
          imageCallsOnce apiKey s.refImage nn np (some img)
        ({ s with selectedImages := sel1
                  generatedImages := gen1
                  currentSequentialScene := some nn
                  tempSelectedImage := none
                  sequentialImages := [r1, r2].filterMap id
                  isSequentialSceneLoading := false }, [batch])
  | _, _ => (s, [])

/-- `handleSequentialRegenerate` (lines 190-213): drop the temporary pick and
the shown candidates, and await the current scene's two calls issued in
parallel, seeded with the previous scene's recorded selection when the current
scene is not the first. -/
def stepSequentialRegenerate (apiKey : Bool) (scenes : List SceneOverview)
    (s : OState) (r1 r2 : Option String) : OState × List (List GenCall) :=
  match s.currentSequentialScene with
  | none => (s, [])
  | some c =>
      if s.isSequentialSceneLoading then (s, [])
      else
        let idx := findSceneIdx scenes c
        let prev : Option String :=
          if 0 < idx then omLookup s.selectedImages (numAt scenes (idx - 1))
          else none
        let n := numAt scenes idx
        let p := promptAt scenes idx
        let batch := imageCallsOnce apiKey s.refImage n p prev ++
          imageCallsOnce apiKey s.refImage n p prev
        ({ s with tempSelectedImage := none
                  sequentialImages := [r1, r2].filterMap id
                  isSequentialSceneLoading := false }, [batch])

/-- The transition function of the overview component. -/
def step (apiKey : Bool) (scenes : List SceneOverview) (s : OState) :
    OEvent → OState × List (List GenCall)
  | OEvent.refImageChange img =>
      ({ s with refImage := some img, generatedImages := [], selectedImages := [] }, [])
  | OEvent.generate n prompt r1 r2 => stepGenerate apiKey s n prompt r1 r2
  | OEvent.selectImage n src =>
      ({ s with selectedImages := omInsert s.selectedImages n src }, [])
  | OEvent.startSequential r1 r2 => stepStartSequential apiKey scenes s r1 r2
  | OEvent.setTempSelected src => ({ s with tempSelectedImage := some src }, [])
  | OEvent.confirmAndNext r1 r2 => stepConfirmAndNext apiKey scenes s r1 r2
  | OEvent.sequentialRegenerate r1 r2 => stepSequentialRegenerate apiKey scenes s r1 r2
  | OEvent.cancelSequential =>
      ({ s with isSequentialGenerating := false
                currentSequentialScene := none
                generatedImages := []
                selectedImages := [] }, [])

/-- Which events the rendered UI can fire in a given state.  While the
sequential modal is open (`isSequentialGenerating`) it covers the whole page
(`fixed inset-0 z-50`), so only the modal's own controls are reachable; a
candidate of a scene can only be clicked while it is rendered
(`generatedImages[n]` shown and the scene not loading); the confirm and
regenerate buttons are disabled while the modal is loading, and confirm also
while no candidate is picked. -/
def enabled (scenes : List SceneOverview) (s : OState) : OEvent → Bool
  | OEvent.refImageChange _ => !s.isSequentialGenerating
  | OEvent.generate n prompt _ _ =>
      !s.isSequentialGenerating &&
        scenes.any fun sc => sc.sceneNumber == n && sc.imagePrompt == prompt
  | OEvent.selectImage n src =>
      !s.isSequentialGenerating && (sceneNumbers scenes).contains n &&
        (match omLookup s.generatedImages n with
         | some urls => urls.contains src
         | none => false)
  | OEvent.startSequential _ _ =>
      !s.isSequentialGenerating && s.refImage.isSome && !scenes.isEmpty
  | OEvent.setTempSelected src =>
      s.isSequentialGenerating && s.sequentialImages.contains src
  | OEvent.confirmAndNext _ _ =>
      s.isSequentialGenerating && s.tempSelectedImage.isSome &&
        s.currentSequentialScene.isSome && !s.isSequentialSceneLoading
  | OEvent.sequentialRegenerate _ _ =>
      s.isSequentialGenerating && s.currentSequentialScene.isSome &&
        !s.isSequentialSceneLoading
  | OEvent.cancelSequential => s.isSequentialGenerating

/-- The states the mounted overview component can reach. -/
inductive Reachable (apiKey : Bool) (scenes : List SceneOverview) : OState → Prop where
  | init (r0 : Option String) : Reachable apiKey scenes (initOState r0)
  | next (s : OState) (e : OEvent) : Reachable apiKey scenes s →
      enabled scenes s e = true → Reachable apiKey scenes (step apiKey scenes s e).1

/-- `allImagesGenerated` (line 272). -/
def allImagesGenerated (scenes : List SceneOverview) (s : OState) : Bool :=
  scenes.all fun sc =>
    match omLookup s.generatedImages sc.sceneNumber with
    | some urls => decide (0 < urls.length)
    | none => false

/-- `allImagesSelected` (line 273); the "Download all" button is enabled
exactly when this is `true` (its `disabled` attribute is the negation). -/
def allImagesSelected (scenes : List SceneOverview) (s : OState) : Bool :=
  allImagesGenerated scenes s && s.selectedImages.length == scenes.length

/-- Invariant on the two per-scene maps: the selection keys are distinct scene
numbers of the scene list, and every selected scene has a non-empty candidate
list. -/
def SelInv (scenes : List SceneOverview) (s : OState) : Prop :=
  (omKeys s.selectedImages).Nodup ∧
  (∀ k, k ∈ omKeys s.selectedImages → k ∈ sceneNumbers scenes) ∧
  (∀ n src, omLookup s.selectedImages n = some src →
    ∃ urls, omLookup s.generatedImages n = some urls ∧ urls ≠ [])

/-- Invariant of the sequential modal: while it is open, the current scene is
`scenes[j]` for some index `j`, and every earlier scene already has a recorded
selection; while it is closed, there is no current scene. -/
def SeqInv (scenes : List SceneOverview) (s : OState) : Prop :=
  (s.isSequentialGenerating = true →
    ∃ j, j < scenes.length ∧
      s.currentSequentialScene = some (numAt scenes j) ∧
      ∀ i, i < j → (omLookup s.selectedImages (numAt scenes i)).isSome = true) ∧
  (s.isSequentialGenerating = false → s.currentSequentialScene = none)

/-- The combined machine invariant. -/
def OInv (scenes : List SceneOverview) (s : OState) : Prop :=
  SelInv scenes s ∧ SeqInv scenes s

/-! ## Remaining definitions for the claims -/
/-- The events that belong to the sequential generation mode. -/
def isSequentialEvent : OEvent → Bool
  | OEvent.startSequential _ _ => true
  | OEvent.confirmAndNext _ _ => true
  | OEvent.sequentialRegenerate _ _ => true
  | _ => false

/-- `handleEditImageFinish` in `src/App.tsx` (lines 67-72): a non-null editor
result is routed through `handleReferenceImageChange` and hence fires the
overview's clearing effect (the `refImageChange` event); a null result changes
no state. -/
def handleEditImageFinishEvent : Option String → Option OEvent
  | some img => some (OEvent.refImageChange img)
  | none => none

/-- A two-scene overview list used for concrete runs. -/
def demoScenes : List SceneOverview :=
  [{ sceneNumber := 1, storyContent := "s1", imagePrompt := "p1", videoPrompt := "v1" },
   { sceneNumber := 2, storyContent := "s2", imagePrompt := "p2", videoPrompt := "v2" }]

/-- A one-scene overview list used for concrete runs. -/
def demoScene1 : List SceneOverview :=
  [{ sceneNumber := 1, storyContent := "s1", imagePrompt := "p1", videoPrompt := "v1" }]

/-- A concrete prompt variant. -/
def demoPv : PromptVersion := { chinese_prompt := "中文", english_prompt := "english" }

/-- A structured-generation response with a missing image variant (slot 1) and
a non-array video-prompt field. -/
def demoRaw : RawScene :=
  { scene_number := 7
    story_content := "st"
    image_prompts := some [some demoPv]
    image_to_video_prompts := none }

/-- A well-formed structured-generation response entry. -/
def demoRawFull : RawScene :=
  { scene_number := 3
    story_content := "full"
    image_prompts := some [some demoPv, some demoPv]
    image_to_video_prompts := some [some demoPv, some demoPv] }

/-- A concrete picker scene whose response-assigned `scene_number` (9) differs
from its position. -/
def demoStoryScene : StoryScene :=
  { id := 5
    scene_number := 9
    story_content := "story"
    image_prompts := ({ chinese_prompt := "ca", english_prompt := "ea" },
      { chinese_prompt := "cb", english_prompt := "eb" })
    image_to_video_prompts := ({ chinese_prompt := "cva", english_prompt := "eva" },
      { chinese_prompt := "cvb", english_prompt := "evb" })
    selected_image_prompt_index := 1
    selected_video_prompt_index := 0 }

/-! ## Theorems -/

theorem omLookup_insert {α : Type} (m : List (Nat × α)) (k x : Nat) (v : α) :
    omLookup (omInsert m k v) x = if x = k then some v else omLookup m x := by
  induction m with
  | nil =>
      by_cases hxk : x = k
      · simp [omInsert, omLookup, hxk]
      · have hkx : ¬ k = x := fun h => hxk h.symm
        simp [omInsert, omLookup, hxk, hkx]
  | cons e t ih =>
      by_cases hek : e.1 = k
      · by_cases hxk : x = k
        · simp [omInsert, omLookup, hek, hxk]
        · have hkx : ¬ k = x := fun h => hxk h.symm
          have hex : ¬ e.1 = x := by rw [hek]; exact hkx
          simp [omInsert, omLookup, hek, hxk, hkx, hex]
      · by_cases hex : e.1 = x
        · have hxk : ¬ x = k := fun h => hek (by rw [hex, h])
          simp [omInsert, omLookup, hek, hex, hxk]
        · simp [omInsert, omLookup, hek, hex, ih]

theorem omLookup_erase {α : Type} (m : List (Nat × α)) (k x : Nat) :
    omLookup (omErase m k) x = if x = k then none else omLookup m x := by
  induction m with
  | nil => simp [omErase, omLookup]
  | cons e t ih =>
      by_cases hek : e.1 = k
      · by_cases hxk : x = k
        · rw [omErase, if_pos hek, ih]
          simp [hxk]
        · have hex : ¬ e.1 = x := by
            rw [hek]; exact fun h => hxk h.symm
          rw [omErase, if_pos hek, ih]
          simp only [hxk, if_neg, not_false_iff]
          rw [omLookup, if_neg hex]
      · by_cases hex : e.1 = x
        · have hxk : ¬ x = k := fun h => hek (by rw [hex, h])
          simp [omErase, omLookup, hek, hex, hxk]
        · simp [omErase, omLookup, hek, hex, ih]

theorem mem_omKeys_insert {α : Type} (m : List (Nat × α)) (k x : Nat) (v : α) :
    x ∈ omKeys (omInsert m k v) ↔ x = k ∨ x ∈ omKeys m := by
  induction m with
  | nil => simp [omInsert, omKeys]
  | cons e t ih =>
      by_cases hek : e.1 = k
      · rw [omInsert, if_pos hek]
        rw [omKeys, List.map_cons, List.mem_cons, omKeys, List.map_cons, List.mem_cons]
        constructor
        · rintro (h | h)
          · exact Or.inl h
          · exact Or.inr (Or.inr h)
        · rintro (h | h | h)
          · exact Or.inl h
          · exact Or.inl (by rw [h, hek])
          · exact Or.inr h
      · rw [omInsert, if_neg hek]
        rw [omKeys, List.map_cons, List.mem_cons, omKeys, List.map_cons, List.mem_cons]
        rw [omKeys] at ih
        constructor
        · rintro (h | h)
          · exact Or.inr (Or.inl h)
          · rcases ih.mp h with h | h
            · exact Or.inl h
            · exact Or.inr (Or.inr h)
        · rintro (h | h | h)
          · exact Or.inr (ih.mpr (Or.inl h))
          · exact Or.inl h
          · exact Or.inr (ih.mpr (Or.inr h))

theorem nodup_omKeys_insert {α : Type} (m : List (Nat × α)) (k : Nat) (v : α)
    (h : (omKeys m).Nodup) : (omKeys (omInsert m k v)).Nodup := by
  induction m with
  | nil => simp [omInsert, omKeys]
  | cons e t ih =>
      rw [omKeys, List.map_cons, List.nodup_cons] at h
      by_cases hek : e.1 = k
      · simp only [omInsert, hek, if_pos]
        rw [omKeys, List.map_cons, List.nodup_cons]
        refine ⟨?_, h.2⟩
        intro hk
        exact h.1 (by rw [hek]; exact hk)
      · simp only [omInsert, hek, if_neg, not_false_iff]
        rw [omKeys, List.map_cons, List.nodup_cons]
        refine ⟨?_, ih h.2⟩
        intro hmem
        rcases (mem_omKeys_insert t k e.1 v).mp hmem with h1 | h1
        · exact hek h1
        · exact h.1 h1

theorem mem_omKeys_erase {α : Type} (m : List (Nat × α)) (k x : Nat)
    (h : x ∈ omKeys (omErase m k)) : x ∈ omKeys m := by
  induction m with
  | nil => simp [omErase, omKeys] at h
  | cons e t ih =>
      rw [omKeys, List.map_cons, List.mem_cons]
      by_cases hek : e.1 = k
      · rw [omErase, if_pos hek] at h
        exact Or.inr (ih h)
      · rw [omErase, if_neg hek, omKeys, List.map_cons, List.mem_cons] at h
        rcases h with h | h
        · exact Or.inl h
        · exact Or.inr (ih h)

theorem nodup_omKeys_erase {α : Type} (m : List (Nat × α)) (k : Nat)
    (h : (omKeys m).Nodup) : (omKeys (omErase m k)).Nodup := by
  induction m with
  | nil => simp [omErase, omKeys]
  | cons e t ih =>
      rw [omKeys, List.map_cons, List.nodup_cons] at h
      by_cases hek : e.1 = k
      · rw [omErase, if_pos hek]
        exact ih h.2
      · rw [omErase, if_neg hek, omKeys, List.map_cons, List.nodup_cons]
        exact ⟨fun hmem => h.1 (mem_omKeys_erase t k e.1 hmem), ih h.2⟩

theorem omLookup_isSome_iff_mem_keys {α : Type} (m : List (Nat × α)) (x : Nat) :
    (omLookup m x).isSome = true ↔ x ∈ omKeys m := by
  induction m with
  | nil => simp [omLookup, omKeys]
  | cons e t ih =>
      rw [omKeys, List.map_cons, List.mem_cons]
      by_cases hex : e.1 = x
      · rw [omLookup, if_pos hex]
        simp [hex]
      · rw [omLookup, if_neg hex, omKeys] at *
        rw [ih]
        constructor
        · exact fun h => Or.inr h
        · rintro (h | h)
          · exact absurd h (fun hh => hex hh.symm)
          · exact h

theorem omKeys_length {α : Type} (m : List (Nat × α)) :
    (omKeys m).length = m.length := by
  simp [omKeys]

/-! ## Invariants of the overview machine -/
theorem numAt_mem (scenes : List SceneOverview) (i : Nat) (h : i < scenes.length) :
    numAt scenes i ∈ sceneNumbers scenes := by
  rw [numAt, List.get?_eq_get h]
  exact List.mem_map_of_mem _ (List.get_mem scenes i h)

theorem findSceneIdx_numAt (scenes : List SceneOverview)
    (hnd : (sceneNumbers scenes).Nodup) (j : Nat) (h : j < scenes.length) :
    findSceneIdx scenes (numAt scenes j) = j := by
  induction scenes generalizing j with
  | nil => simp at h
  | cons sc t ih =>
      rw [sceneNumbers, List.map_cons, List.nodup_cons] at hnd
      cases j with
      | zero =>
          have hn : numAt (sc :: t) 0 = sc.sceneNumber := rfl
          rw [findSceneIdx, hn, List.findIdx_cons, beq_self_eq_true]
          rfl
      | succ j =>
          have hn : numAt (sc :: t) (j + 1) = numAt t j := rfl
          have hj : j < t.length := by
            simpa using h
          have hne : sc.sceneNumber ≠ numAt t j := by
            intro hcontra
            exact hnd.1 (by rw [hcontra]; exact numAt_mem t j hj)
          rw [findSceneIdx, hn, List.findIdx_cons, beq_eq_false_iff_ne.mpr hne]
          have := ih hnd.2 j hj
          rw [findSceneIdx] at this
          simp [this]

theorem oinv_init (scenes : List SceneOverview) (r0 : Option String) :
    OInv scenes (initOState r0) := by
  refine ⟨⟨?_, ?_, ?_⟩, ?_, ?_⟩
  · simp [initOState, omKeys]
  · intro k hk; simp [initOState, omKeys] at hk
  · intro n src h; simp [initOState, omLookup] at h
  · intro h; simp [initOState] at h
  · intro _; rfl

theorem oinv_step (apiKey : Bool) (scenes : List SceneOverview)
    (hnd : (sceneNumbers scenes).Nodup) (s : OState) (e : OEvent)
    (hi : OInv scenes s) (he : enabled scenes s e = true) :
    OInv scenes (step apiKey scenes s e).1 := by
  obtain ⟨⟨hI1, hI2, hI3⟩, hSeq, hCur⟩ := hi
  cases e with
  | refImageChange img =>
      simp only [enabled, Bool.not_eq_true'] at he
      refine ⟨⟨?_, ?_, ?_⟩, ?_, ?_⟩
      · simp [step, omKeys]
      · intro k hk; simp [step, omKeys] at hk
      · intro n src h; simp [step, omLookup] at h
      · intro h; simp [step, he] at h
      · intro _; simp [step]; exact hCur he
  | generate n prompt r1 r2 =>
      simp only [enabled, Bool.and_eq_true, Bool.not_eq_true'] at he
      obtain ⟨hseq0, -⟩ := he
      by_cases hurls : ([r1, r2].filterMap id).isEmpty
      · refine ⟨⟨?_, ?_, ?_⟩, ?_, ?_⟩
        · simp [step, stepGenerate, hurls]
          exact nodup_omKeys_erase _ _ hI1
        · intro k hk
          simp [step, stepGenerate, hurls] at hk
          exact hI2 k (mem_omKeys_erase _ _ _ hk)
        · intro m src h
          simp only [step, stepGenerate, hurls, if_pos] at h ⊢
          rw [omLookup_erase] at h
          by_cases hmn : m = n
          · simp [hmn] at h
          · rw [if_neg hmn] at h
            exact hI3 m src h
        · intro h
          simp [step, stepGenerate, hurls, hseq0] at h
        · intro _
          simp [step, stepGenerate, hurls]
          exact hCur hseq0
      · refine ⟨⟨?_, ?_, ?_⟩, ?_, ?_⟩
        · simp [step, stepGenerate, hurls]
          exact nodup_omKeys_erase _ _ hI1
        · intro k hk
          simp [step, stepGenerate, hurls] at hk
          exact hI2 k (mem_omKeys_erase _ _ _ hk)
        · intro m src h
          simp [step, stepGenerate, hurls] at h ⊢
          rw [omLookup_erase] at h
          by_cases hmn : m = n
          · simp [hmn] at h
          · rw [if_neg hmn] at h
            obtain ⟨urls, hu, hune⟩ := hI3 m src h
            refine ⟨urls, ?_, hune⟩
            rw [omLookup_insert, if_neg hmn]
            exact hu
        · intro h
          simp [step, stepGenerate, hurls, hseq0] at h
        · intro _
          simp [step, stepGenerate, hurls]
          exact hCur hseq0
  | selectImage n src =>
      simp only [enabled, Bool.and_eq_true, Bool.not_eq_true'] at he
      obtain ⟨⟨hseq0, hmemn⟩, hmatch⟩ := he
      have hn : n ∈ sceneNumbers scenes := by
        simpa [List.contains] using hmemn
      cases hgen : omLookup s.generatedImages n with
      | none => rw [hgen] at hmatch; simp at hmatch
      | some urls =>
          rw [hgen] at hmatch
          have hsrc : src ∈ urls := by
            simpa [List.contains] using hmatch
          refine ⟨⟨?_, ?_, ?_⟩, ?_, ?_⟩
          · simp only [step]
            exact nodup_omKeys_insert _ _ _ hI1
          · intro k hk
            simp only [step] at hk
            rcases (mem_omKeys_insert _ _ _ _).mp hk with h | h
            · rw [h]; exact hn
            · exact hI2 k h
          · intro m src2 h
            simp only [step] at h ⊢
            rw [omLookup_insert] at h
            by_cases hmn : m = n
            · rw [if_pos hmn] at h
              refine ⟨urls, ?_, List.ne_nil_of_mem hsrc⟩
              rw [hmn]; exact hgen
            · rw [if_neg hmn] at h
              exact hI3 m src2 h
          · intro h
            simp [step, hseq0] at h
          · intro _
            simp only [step]
            exact hCur hseq0
  | startSequential r1 r2 =>
      simp only [enabled, Bool.and_eq_true, Bool.not_eq_true'] at he
      obtain ⟨⟨hseq0, href⟩, hne⟩ := he
      obtain ⟨r, hr⟩ := Option.isSome_iff_exists.mp href
      have hlen : 0 < scenes.length := by
        cases scenes with
        | nil => simp at hne
        | cons a t => simp
      refine ⟨⟨?_, ?_, ?_⟩, ?_, ?_⟩
      · simp [step, stepStartSequential, hr, omKeys]
      · intro k hk; simp [step, stepStartSequential, hr, omKeys] at hk
      · intro m src h; simp [step, stepStartSequential, hr, omLookup] at h
      · intro _
        refine ⟨0, hlen, ?_, ?_⟩
        · simp [step, stepStartSequential, hr]
        · intro i hi0; simp at hi0
      · intro h
        simp [step, stepStartSequential, hr] at h
  | setTempSelected src =>
      refine ⟨⟨?_, ?_, ?_⟩, ?_, ?_⟩
      · simp only [step]; exact hI1
      · intro k hk; simp only [step] at hk; exact hI2 k hk
      · intro m src2 h; simp only [step] at h ⊢; exact hI3 m src2 h
      · intro h
        simp only [step] at h ⊢
        obtain ⟨j, hj, hcurj, hsel⟩ := hSeq h
        exact ⟨j, hj, hcurj, hsel⟩
      · intro h
        simp only [step] at h ⊢
        exact hCur h
  | confirmAndNext r1 r2 =>
      simp only [enabled, Bool.and_eq_true, Bool.not_eq_true'] at he
      obtain ⟨⟨⟨hseq1, htempS⟩, hcurS⟩, hload⟩ := he
      obtain ⟨img, htemp⟩ := Option.isSome_iff_exists.mp htempS
      obtain ⟨c, hcur⟩ := Option.isSome_iff_exists.mp hcurS
      obtain ⟨j, hj, hcurj, hsel⟩ := hSeq hseq1
      have hc : c = numAt scenes j := by
        rw [hcur] at hcurj
        exact Option.some.inj hcurj
      have hfind : findSceneIdx scenes c = j := by
        rw [hc]; exact findSceneIdx_numAt scenes hnd j hj
      by_cases hlast : j = scenes.length - 1
      · refine ⟨⟨?_, ?_, ?_⟩, ?_, ?_⟩
        · simp [step, stepConfirmAndNext, htemp, hcur, hfind, hlast]
          exact nodup_omKeys_insert _ _ _ hI1
        · intro k hk
          simp [step, stepConfirmAndNext, htemp, hcur, hfind, hlast] at hk
          rcases (mem_omKeys_insert _ _ _ _).mp hk with h | h
          · rw [h, hc]; exact numAt_mem scenes j hj
          · exact hI2 k h
        · intro m src h
          simp [step, stepConfirmAndNext, htemp, hcur, hfind, hlast] at h ⊢
          rw [omLookup_insert] at h
          by_cases hmc : m = c
          · refine ⟨[img], ?_, by simp⟩
            rw [omLookup_insert, if_pos hmc]
          · rw [if_neg hmc] at h
            obtain ⟨urls, hu, hune⟩ := hI3 m src h
            refine ⟨urls, ?_, hune⟩
            rw [omLookup_insert, if_neg hmc]
            exact hu
        · intro h
          simp [step, stepConfirmAndNext, htemp, hcur, hfind, hlast] at h
        · intro _
          simp [step, stepConfirmAndNext, htemp, hcur, hfind, hlast]
      · have hjlt : j + 1 < scenes.length := by
          omega
        refine ⟨⟨?_, ?_, ?_⟩, ?_, ?_⟩
        · simp [step, stepConfirmAndNext, htemp, hcur, hfind, hlast]
          exact nodup_omKeys_insert _ _ _ hI1
        · intro k hk
          simp [step, stepConfirmAndNext, htemp, hcur, hfind, hlast] at hk
          rcases (mem_omKeys_insert _ _ _ _).mp hk with h | h
          · rw [h, hc]; exact numAt_mem scenes j hj
          · exact hI2 k h
        · intro m src h
          simp [step, stepConfirmAndNext, htemp, hcur, hfind, hlast] at h ⊢
          rw [omLookup_insert] at h
          by_cases hmc : m = c
          · refine ⟨[img], ?_, by simp⟩
            rw [omLookup_insert, if_pos hmc]
          · rw [if_neg hmc] at h
            obtain ⟨urls, hu, hune⟩ := hI3 m src h
            refine ⟨urls, ?_, hune⟩
            rw [omLookup_insert, if_neg hmc]
            exact hu
        · intro _
          refine ⟨j + 1, hjlt, ?_, ?_⟩
          · simp [step, stepConfirmAndNext, htemp, hcur, hfind, hlast]
          · intro i hij
            simp [step, stepConfirmAndNext, htemp, hcur, hfind, hlast]
            rw [omLookup_insert]
            by_cases hic : numAt scenes i = c
            · rw [if_pos hic]; rfl
            · rw [if_neg hic]
              have hij2 : i < j := by
                rcases Nat.lt_succ_iff_lt_or_eq.mp hij with h | h
                · exact h
                · exact absurd (by rw [h, ← hc]) hic
              exact hsel i hij2
        · intro h
          simp [step, stepConfirmAndNext, htemp, hcur, hfind, hlast, hseq1] at h
  | sequentialRegenerate r1 r2 =>
      simp only [enabled, Bool.and_eq_true, Bool.not_eq_true'] at he
      obtain ⟨⟨hseq1, hcurS⟩, hload⟩ := he
      obtain ⟨c, hcur⟩ := Option.isSome_iff_exists.mp hcurS
      refine ⟨⟨?_, ?_, ?_⟩, ?_, ?_⟩
      · simp only [step, stepSequentialRegenerate, hcur, hload, if_neg, not_false_iff]
        exact hI1
      · intro k hk
        simp only [step, stepSequentialRegenerate, hcur, hload, if_neg,
          not_false_iff] at hk
        exact hI2 k hk
      · intro m src h
        simp only [step, stepSequentialRegenerate, hcur, hload, if_neg,
          not_false_iff] at h ⊢
        exact hI3 m src h
      · intro _
        obtain ⟨j, hj, hcurj, hsel⟩ := hSeq hseq1
        refine ⟨j, hj, ?_, ?_⟩
        · simp only [step, stepSequentialRegenerate, hcur, hload, if_neg, not_false_iff]
          rw [← hcur]; exact hcurj
        · intro i hij
          simp only [step, stepSequentialRegenerate, hcur, hload, if_neg, not_false_iff]
          exact hsel i hij
      · intro h
        simp [step, stepSequentialRegenerate, hcur, hload, hseq1] at h
  | cancelSequential =>
      refine ⟨⟨?_, ?_, ?_⟩, ?_, ?_⟩
      · simp [step, omKeys]
      · intro k hk; simp [step, omKeys] at hk
      · intro n src h; simp [step, omLookup] at h
      · intro h; simp [step] at h
      · intro _; simp [step]

/-- Every reachable overview state satisfies the machine invariant. -/
theorem reachable_oinv (apiKey : Bool) (scenes : List SceneOverview)
    (hnd : (sceneNumbers scenes).Nodup) (s : OState)
    (hr : Reachable apiKey scenes s) : OInv scenes s := by
  induction hr with
  | init r0 => exact oinv_init scenes r0
  | next s e _ he ih => exact oinv_step apiKey scenes hnd s e ih he

/-! ## List helper lemmas -/
theorem nodup_subset_length_full (l1 l2 : List Nat) (h1 : l1.Nodup)
    (hsub : l1 ⊆ l2) (hlen : l2.length ≤ l1.length) : ∀ x ∈ l2, x ∈ l1 := by
  have hsp : List.Subperm l1 l2 := List.subperm_of_subset h1 hsub
  have hperm : l1.Perm l2 := hsp.perm_of_length_le hlen
  intro x hx
  exact hperm.mem_iff.mpr hx

theorem scenesWithStateAux_length (now : Int) (idx : Nat) (raws : List RawScene) :
    (scenesWithStateAux now idx raws).length = raws.length := by
  induction raws generalizing idx with
  | nil => rfl
  | cons r t ih => simp [scenesWithStateAux, ih]

theorem scenesWithStateAux_get? (now : Int) (idx : Nat) (raws : List RawScene)
    (i : Nat) :
    (scenesWithStateAux now idx raws).get? i =
      (raws.get? i).map fun r => sceneWithState now (idx + i) r := by
  induction raws generalizing idx i with
  | nil => simp [scenesWithStateAux]
  | cons r t ih =>
      cases i with
      | zero => simp [scenesWithStateAux]
      | succ i =>
          have harith : idx + 1 + i = idx + (i + 1) := by omega
          simp only [scenesWithStateAux, List.get?_cons_succ]
          rw [ih, harith]

theorem scenesWithStateAux_sel (now : Int) (idx : Nat) (raws : List RawScene)
    (sc : StoryScene) (h : sc ∈ scenesWithStateAux now idx raws) :
    sc.selected_image_prompt_index = 0 ∧ sc.selected_video_prompt_index = 0 := by
  induction raws generalizing idx with
  | nil => simp [scenesWithStateAux] at h
  | cons r t ih =>
      rw [scenesWithStateAux, List.mem_cons] at h
      rcases h with h | h
      · rw [h]; exact ⟨rfl, rfl⟩
      · exact ih (idx + 1) h

theorem handleSelectionChangeAux_length (cur : Nat) (ptype : PromptType)
    (index : Nat) (i : Nat) (l : List StoryScene) :
    (handleSelectionChangeAux cur ptype index i l).length = l.length := by
  induction l generalizing i with
  | nil => rfl
  | cons s t ih => simp [handleSelectionChangeAux, ih]

theorem handleSelectionChangeAux_get? (cur : Nat) (ptype : PromptType)
    (index : Nat) (i : Nat) (l : List StoryScene) (j : Nat) :
    (handleSelectionChangeAux cur ptype index i l).get? j =
      (l.get? j).map fun s =>
        if i + j = cur then updateSelection ptype index s else s := by
  induction l generalizing i j with
  | nil => simp [handleSelectionChangeAux]
  | cons s t ih =>
      cases j with
      | zero => simp [handleSelectionChangeAux]
      | succ j =>
          have harith : i + 1 + j = i + (j + 1) := by omega
          simp only [handleSelectionChangeAux, List.get?_cons_succ]
          rw [ih, harith]

theorem handleSelectionChangeAux_mem (cur : Nat) (ptype : PromptType)
    (index : Nat) (i : Nat) (l : List StoryScene) (sc : StoryScene)
    (h : sc ∈ handleSelectionChangeAux cur ptype index i l) :
    ∃ s0 ∈ l, sc = s0 ∨ sc = updateSelection ptype index s0 := by
  induction l generalizing i with
  | nil => simp [handleSelectionChangeAux] at h
  | cons s t ih =>
      rw [handleSelectionChangeAux, List.mem_cons] at h
      rcases h with h | h
      · by_cases hic : i = cur
        · rw [if_pos hic] at h
          exact ⟨s, List.mem_cons_self s t, Or.inr h⟩
        · rw [if_neg hic] at h
          exact ⟨s, List.mem_cons_self s t, Or.inl h⟩
      · obtain ⟨s0, hs0, hor⟩ := ih (i + 1) h
        exact ⟨s0, List.mem_cons_of_mem s hs0, hor⟩

theorem updateSelection_sel_range (ptype : PromptType) (index : Nat)
    (s : StoryScene) (hv : index = 0 ∨ index = 1)
    (h : (s.selected_image_prompt_index = 0 ∨ s.selected_image_prompt_index = 1) ∧
      (s.selected_video_prompt_index = 0 ∨ s.selected_video_prompt_index = 1)) :
    ((updateSelection ptype index s).selected_image_prompt_index = 0 ∨
      (updateSelection ptype index s).selected_image_prompt_index = 1) ∧
    ((updateSelection ptype index s).selected_video_prompt_index = 0 ∨
      (updateSelection ptype index s).selected_video_prompt_index = 1) := by
  cases ptype with
  | image => exact ⟨hv, h.2⟩
  | video => exact ⟨h.1, hv⟩

theorem handleFinishSelectionAux_length (vps : List GeneratedPrompt)
    (scs : List String) (idx : Nat) (ips : List GeneratedPrompt) :
    (handleFinishSelectionAux vps scs idx ips).length = ips.length := by
  induction ips generalizing idx with
  | nil => rfl
  | cons p t ih => simp [handleFinishSelectionAux, ih]

theorem handleFinishSelectionAux_get? (vps : List GeneratedPrompt)
    (scs : List String) (idx : Nat) (ips : List GeneratedPrompt) (j : Nat) :
    (handleFinishSelectionAux vps scs idx ips).get? j =
      (ips.get? j).map fun p =>
        { sceneNumber := idx + j + 1
          storyContent := (scs.get? (idx + j)).getD ""
          imagePrompt := p.english_prompt
          videoPrompt := ((vps.get? (idx + j)).map
            (fun q => q.english_prompt)).getD "" } := by
  induction ips generalizing idx j with
  | nil => simp [handleFinishSelectionAux]
  | cons p t ih =>
      cases j with
      | zero => simp [handleFinishSelectionAux]
      | succ j =>
          have harith : idx + 1 + j = idx + (j + 1) := by omega
          simp only [handleFinishSelectionAux, List.get?_cons_succ]
          rw [ih, harith]

theorem handleFinishSelectionAux_number_mem (vps : List GeneratedPrompt)
    (scs : List String) (idx : Nat) (ips : List GeneratedPrompt) (n : Nat)
    (h : n ∈ (handleFinishSelectionAux vps scs idx ips).map
      (fun e => e.sceneNumber)) : ∃ j, j < ips.length ∧ n = idx + j + 1 := by
  induction ips generalizing idx with
  | nil => simp [handleFinishSelectionAux] at h
  | cons p t ih =>
      rw [handleFinishSelectionAux, List.map_cons, List.mem_cons] at h
      rcases h with h | h
      · exact ⟨0, by simp, h⟩
      · obtain ⟨j, hj, hn⟩ := ih (idx + 1) h
        exact ⟨j + 1, by simpa using hj, by omega⟩

theorem handleFinishSelectionAux_number_nodup (vps : List GeneratedPrompt)
    (scs : List String) (idx : Nat) (ips : List GeneratedPrompt) :
    ((handleFinishSelectionAux vps scs idx ips).map
      (fun e => e.sceneNumber)).Nodup := by
  induction ips generalizing idx with
  | nil => simp [handleFinishSelectionAux]
  | cons p t ih =>
      rw [handleFinishSelectionAux, List.map_cons, List.nodup_cons]
      refine ⟨?_, ih (idx + 1)⟩
      intro hmem
      obtain ⟨j, hj, hn⟩ := handleFinishSelectionAux_number_mem vps scs (idx + 1) t _ hmem
      have hcontra : idx + 1 = idx + 1 + j + 1 := hn
      omega

theorem mem_imageCallsOnce (apiKey : Bool) (rimg : Option String) (n : Nat)
    (p : String) (prev : Option String) (call : GenCall)
    (h : call ∈ imageCallsOnce apiKey rimg n p prev) :
    call.sceneNumber = n ∧ call.prompt = p ∧ call.previousImage = prev := by
  cases apiKey with
  | false => simp [imageCallsOnce] at h
  | true =>
      cases rimg with
      | none => simp [imageCallsOnce] at h
      | some r =>
          simp [imageCallsOnce] at h
          rw [h]
          exact ⟨rfl, rfl, rfl⟩

/-! ## Claim theorems -/
/-- Claim C1: every change of the reference image while the overview is
mounted — whether through the change-image upload or the image-editor finish,
both of which route through `handleReferenceImageChange` and fire the
`useEffect` on `storyConfig.referenceImage` — resets the per-scene
generated-image map and the per-scene selected-image map to empty, so no scene
retains any previously generated candidate or previously selected image. -/
theorem c1_reference_image_change_clears (apiKey : Bool)
    (scenes : List SceneOverview) (s : OState) (img : String) :
    (step apiKey scenes s (OEvent.refImageChange img)).1.generatedImages = [] ∧
    (step apiKey scenes s (OEvent.refImageChange img)).1.selectedImages = [] ∧
    handleEditImageFinishEvent (some img) = some (OEvent.refImageChange img) ∧
    handleEditImageFinishEvent none = none :=
  ⟨rfl, rfl, rfl, rfl⟩

/-- Claim C2, counterexample: after scene 1 gets candidates `["a","b"]` and the
user selects `"a"`, triggering `handleGenerate` for scene 1 with both calls
failing does not leave the scene's selected-image entry at its pre-call value:
the handler deletes the selection before the calls and does not restore it on
failure. -/
theorem c2_counterexample :
    omLookup (step true demoScenes
      (step true demoScenes
        (step true demoScenes (initOState (some "ref"))
          (OEvent.generate 1 "p1" (some "a") (some "b"))).1
        (OEvent.selectImage 1 "a")).1
      (OEvent.generate 1 "p1" none none)).1.selectedImages 1 = none ∧
    omLookup (step true demoScenes
      (step true demoScenes (initOState (some "ref"))
        (OEvent.generate 1 "p1" (some "a") (some "b"))).1
      (OEvent.selectImage 1 "a")).1.selectedImages 1 = some "a" ∧
    (step true demoScenes
      (step true demoScenes
        (step true demoScenes (initOState (some "ref"))
          (OEvent.generate 1 "p1" (some "a") (some "b"))).1
        (OEvent.selectImage 1 "a")).1
      (OEvent.generate 1 "p1" none none)).1.generatedImages =
      (step true demoScenes
        (step true demoScenes (initOState (some "ref"))
          (OEvent.generate 1 "p1" (some "a") (some "b"))).1
        (OEvent.selectImage 1 "a")).1.generatedImages := by
  refine ⟨?_, ?_, ?_⟩ <;> decide

/-- Claim C2 (amended): when both image calls of a per-scene generation fail,
the action reports failure (alert) and leaves the scene's generated-image
entry — and the whole generated-image map — unchanged; the scene's
selected-image entry, however, is not left at its pre-call value: the handler
deletes it before issuing the calls and does not restore it on failure.  The
selections of all other scenes are unchanged. -/
theorem c2_amended_both_fail (apiKey : Bool) (scenes : List SceneOverview)
    (s : OState) (n : Nat) (prompt : String) :
    (step apiKey scenes s (OEvent.generate n prompt none none)).1.generatedImages =
      s.generatedImages ∧
    omLookup (step apiKey scenes s
      (OEvent.generate n prompt none none)).1.selectedImages n = none ∧
    ∀ m, m ≠ n →
      omLookup (step apiKey scenes s
        (OEvent.generate n prompt none none)).1.selectedImages m =
        omLookup s.selectedImages m := by
  refine ⟨rfl, ?_, ?_⟩
  · show omLookup (omErase s.selectedImages n) n = none
    rw [omLookup_erase, if_pos rfl]
  · intro m hm
    show omLookup (omErase s.selectedImages n) m = omLookup s.selectedImages m
    rw [omLookup_erase, if_neg hm]

/-- Witness for the amended C2 at a concrete state: scene 2's selection
survives a failed generation of scene 1, whose own selection reads as absent
afterwards. -/
theorem c2_amended_both_fail_witness :
    omLookup (step true demoScenes (initOState (some "ref"))
      (OEvent.generate 1 "p1" none none)).1.selectedImages 1 = none ∧
    omLookup (step true demoScenes (initOState (some "ref"))
      (OEvent.generate 1 "p1" none none)).1.selectedImages 2 =
      omLookup (initOState (some "ref")).selectedImages 2 :=
  ⟨(c2_amended_both_fail true demoScenes (initOState (some "ref")) 1 "p1").2.1,
   (c2_amended_both_fail true demoScenes (initOState (some "ref")) 1 "p1").2.2 2
     (by decide)⟩

/-- Claim C3: in every reachable overview state (over a scene list with
distinct scene numbers, as produced by the root controller), the
"Download all" button — whose `disabled` attribute is `!allImagesSelected` —
is enabled exactly when the number of entries of the selected-image map equals
the scene count, and equally exactly when every scene has a selected image. -/
theorem c3_download_all_enabled_iff (apiKey : Bool) (scenes : List SceneOverview)
    (hnd : (sceneNumbers scenes).Nodup) (s : OState)
    (hr : Reachable apiKey scenes s) :
    (allImagesSelected scenes s = true ↔
      s.selectedImages.length = scenes.length) ∧
    (allImagesSelected scenes s = true ↔
      ∀ sc ∈ scenes, (omLookup s.selectedImages sc.sceneNumber).isSome = true) := by
  obtain ⟨⟨hI1, hI2, hI3⟩, -⟩ := reachable_oinv apiKey scenes hnd s hr
  have hkeys_sub : omKeys s.selectedImages ⊆ sceneNumbers scenes := fun x hx => hI2 x hx
  have hnums_len : (sceneNumbers scenes).length = scenes.length := by
    simp [sceneNumbers]
  have hfull : s.selectedImages.length = scenes.length →
      ∀ sc ∈ scenes, (omLookup s.selectedImages sc.sceneNumber).isSome = true := by
    intro hlen sc hsc
    have hkeys_len : (sceneNumbers scenes).length ≤ (omKeys s.selectedImages).length := by
      rw [omKeys_length, hlen, hnums_len]
    have hall := nodup_subset_length_full (omKeys s.selectedImages)
      (sceneNumbers scenes) hI1 hkeys_sub hkeys_len
    rw [omLookup_isSome_iff_mem_keys]
    exact hall sc.sceneNumber (List.mem_map_of_mem _ hsc)
  have hgen : (∀ sc ∈ scenes, (omLookup s.selectedImages sc.sceneNumber).isSome = true) →
      allImagesGenerated scenes s = true := by
    intro hsel
    rw [allImagesGenerated, List.all_eq_true]
    intro sc hsc
    obtain ⟨src, hsrc⟩ := Option.isSome_iff_exists.mp (hsel sc hsc)
    obtain ⟨urls, hu, hune⟩ := hI3 sc.sceneNumber src hsrc
    rw [hu]
    simp [List.length_pos, hune]
  have hlen2 : (∀ sc ∈ scenes, (omLookup s.selectedImages sc.sceneNumber).isSome = true) →
      s.selectedImages.length = scenes.length := by
    intro hsel
    have hnums_sub : sceneNumbers scenes ⊆ omKeys s.selectedImages := by
      intro x hx
      obtain ⟨sc, hsc, hx2⟩ := List.mem_map.mp hx
      rw [← hx2, ← omLookup_isSome_iff_mem_keys]
      exact hsel sc hsc
    have h1 : (omKeys s.selectedImages).length ≤ (sceneNumbers scenes).length :=
      (List.subperm_of_subset hI1 hkeys_sub).length_le
    have h2 : (sceneNumbers scenes).length ≤ (omKeys s.selectedImages).length :=
      (List.subperm_of_subset hnd hnums_sub).length_le
    have : (omKeys s.selectedImages).length = (sceneNumbers scenes).length :=
      Nat.le_antisymm h1 h2
    rw [omKeys_length, hnums_len] at this
    exact this
  constructor
  · constructor
    · intro h
      rw [allImagesSelected, Bool.and_eq_true] at h
      exact beq_iff_eq.mp h.2
    · intro hlen
      rw [allImagesSelected, Bool.and_eq_true]
      refine ⟨hgen (hfull hlen), ?_⟩
      rw [hlen]
      exact beq_self_eq_true _
  · constructor
    · intro h
      rw [allImagesSelected, Bool.and_eq_true] at h
      exact hfull (beq_iff_eq.mp h.2)
    · intro hsel
      rw [allImagesSelected, Bool.and_eq_true]
      refine ⟨hgen hsel, ?_⟩
      rw [hlen2 hsel]
      exact beq_self_eq_true _

/-- Witness for C3: a concrete reachable run on a one-scene list in which the
scene was generated and then selected, where both equivalences hold with both
sides true. -/
theorem c3_download_all_enabled_iff_witness :
    (allImagesSelected demoScene1
      (step true demoScene1
        (step true demoScene1 (initOState (some "ref"))
          (OEvent.generate 1 "p1" (some "a") (some "b"))).1
        (OEvent.selectImage 1 "a")).1 = true ↔
      (step true demoScene1
        (step true demoScene1 (initOState (some "ref"))
          (OEvent.generate 1 "p1" (some "a") (some "b"))).1
        (OEvent.selectImage 1 "a")).1.selectedImages.length = demoScene1.length) ∧
    (allImagesSelected demoScene1
      (step true demoScene1
        (step true demoScene1 (initOState (some "ref"))
          (OEvent.generate 1 "p1" (some "a") (some "b"))).1
        (OEvent.selectImage 1 "a")).1 = true ↔
      ∀ sc ∈ demoScene1,
        (omLookup (step true demoScene1
          (step true demoScene1 (initOState (some "ref"))
            (OEvent.generate 1 "p1" (some "a") (some "b"))).1
          (OEvent.selectImage 1 "a")).1.selectedImages sc.sceneNumber).isSome = true) :=
  c3_download_all_enabled_iff true demoScene1 (by decide) _
    (Reachable.next _ _
      (Reachable.next _ _ (Reachable.init (some "ref")) (by decide))
      (by decide))

/-- Claim C4: from any reachable overview state, whenever a sequential-mode
event (`handleStartSequential`, `handleConfirmAndNext`,
`handleSequentialRegenerate`) issues image calls, every issued call is for
some scene `scenes[m]`; when `m > 0` the selected-image map — which these
handlers write, if at all, before initiating the calls, so its value in the
post state is its value at initiation time — holds a selection for scene
`scenes[m-1]`, and exactly that image is passed as the call's continuity
input; the first scene's calls carry no continuity input.  In particular the
calls for scene K+1 are never initiated before scene K has a selected
candidate. -/
theorem c4_sequential_ordering (apiKey : Bool) (scenes : List SceneOverview)
    (hnd : (sceneNumbers scenes).Nodup) (s : OState)
    (hr : Reachable apiKey scenes s) (e : OEvent)
    (he : enabled scenes s e = true) (hseq : isSequentialEvent e = true) :
    ∀ b ∈ (step apiKey scenes s e).2, ∀ call ∈ b,
      ∃ m, m < scenes.length ∧ call.sceneNumber = numAt scenes m ∧
        call.prompt = promptAt scenes m ∧
        (0 < m → ∃ img,
          omLookup (step apiKey scenes s e).1.selectedImages
            (numAt scenes (m - 1)) = some img ∧
          call.previousImage = some img) ∧
        (m = 0 → call.previousImage = none) := by
  obtain ⟨⟨hI1, hI2, hI3⟩, hSeq, hCur⟩ := reachable_oinv apiKey scenes hnd s hr
  cases e with
  | refImageChange img => simp [isSequentialEvent] at hseq
  | generate n prompt r1 r2 => simp [isSequentialEvent] at hseq
  | selectImage n src => simp [isSequentialEvent] at hseq
  | setTempSelected src => simp [isSequentialEvent] at hseq
  | cancelSequential => simp [isSequentialEvent] at hseq
  | startSequential r1 r2 =>
      simp only [enabled, Bool.and_eq_true, Bool.not_eq_true'] at he
      obtain ⟨⟨hseq0, href⟩, hne⟩ := he
      obtain ⟨r, hr0⟩ := Option.isSome_iff_exists.mp href
      have hlen : 0 < scenes.length := by
        cases scenes with
        | nil => simp at hne
        | cons a t => simp
      intro b hb call hc
      simp only [step, stepStartSequential, hr0, List.mem_singleton] at hb
      rw [hb] at hc
      rcases List.mem_append.mp hc with hcl | hcl <;>
        obtain ⟨h1, h2, h3⟩ := mem_imageCallsOnce _ _ _ _ _ _ hcl <;>
        exact ⟨0, hlen, h1, h2, fun h0 => absurd h0 (by omega), fun _ => h3⟩
  | confirmAndNext r1 r2 =>
      simp only [enabled, Bool.and_eq_true, Bool.not_eq_true'] at he
      obtain ⟨⟨⟨hseq1, htempS⟩, hcurS⟩, hload⟩ := he
      obtain ⟨img, htemp⟩ := Option.isSome_iff_exists.mp htempS
      obtain ⟨c, hcur⟩ := Option.isSome_iff_exists.mp hcurS
      obtain ⟨j, hj, hcurj, hsel⟩ := hSeq hseq1
      have hc : c = numAt scenes j := by
        rw [hcur] at hcurj
        exact Option.some.inj hcurj
      have hfind : findSceneIdx scenes c = j := by
        rw [hc]; exact findSceneIdx_numAt scenes hnd j hj
      by_cases hlast : j = scenes.length - 1
      · intro b hb
        simp [step, stepConfirmAndNext, htemp, hcur, hfind, hlast] at hb
      · have hjlt : j + 1 < scenes.length := by omega
        intro b hb call hc2
        simp only [step, stepConfirmAndNext, htemp, hcur, hfind, hlast,
          if_neg, not_false_iff, List.mem_singleton] at hb
        rw [hb] at hc2
        rcases List.mem_append.mp hc2 with hcl | hcl <;>
          obtain ⟨h1, h2, h3⟩ := mem_imageCallsOnce _ _ _ _ _ _ hcl <;>
          refine ⟨j + 1, hjlt, h1, h2, ?_, fun h0 => absurd h0 (by omega)⟩ <;>
          · intro _
            refine ⟨img, ?_, h3⟩
            simp only [step, stepConfirmAndNext, htemp, hcur, hfind, hlast,
              if_neg, not_false_iff, Nat.add_sub_cancel]
            rw [omLookup_insert, if_pos hc.symm]
  | sequentialRegenerate r1 r2 =>
      simp only [enabled, Bool.and_eq_true, Bool.not_eq_true'] at he
      obtain ⟨⟨hseq1, hcurS⟩, hload⟩ := he
      obtain ⟨c, hcur⟩ := Option.isSome_iff_exists.mp hcurS
      obtain ⟨j, hj, hcurj, hsel⟩ := hSeq hseq1
      have hc : c = numAt scenes j := by
        rw [hcur] at hcurj
        exact Option.some.inj hcurj
      have hfind : findSceneIdx scenes c = j := by
        rw [hc]; exact findSceneIdx_numAt scenes hnd j hj
      intro b hb call hc2
      simp only [step, stepSequentialRegenerate, hcur, hload,
        Bool.false_eq_true, if_neg, not_false_iff, hfind, List.mem_singleton] at hb
      rw [hb] at hc2
      by_cases hj0 : 0 < j
      · have hj1 : j - 1 < j := by omega
        obtain ⟨img, himg⟩ := Option.isSome_iff_exists.mp (hsel (j - 1) hj1)
        rcases List.mem_append.mp hc2 with hcl | hcl <;>
          obtain ⟨h1, h2, h3⟩ := mem_imageCallsOnce _ _ _ _ _ _ hcl <;>
          refine ⟨j, hj, h1, h2, ?_, fun h0 => absurd h0 (by omega)⟩ <;>
          · intro _
            refine ⟨img, ?_, ?_⟩
            · simp only [step, stepSequentialRegenerate, hcur, hload,
                Bool.false_eq_true, if_neg, not_false_iff]
              exact himg
            · rw [h3, if_pos hj0, himg]
      · have hj0e : j = 0 := by omega
        rcases List.mem_append.mp hc2 with hcl | hcl <;>
          obtain ⟨h1, h2, h3⟩ := mem_imageCallsOnce _ _ _ _ _ _ hcl <;>
          refine ⟨j, hj, h1, h2, fun h0 => absurd h0 (by omega), ?_⟩ <;>
          · intro _
            rw [h3, if_neg hj0]

/-- Witness for C4: a concrete sequential run on the two-scene list — start,
pick candidate "a" for scene 1, confirm — in which the emitted call for scene 2
carries scene 1's selection "a" as its continuity input. -/
theorem c4_sequential_ordering_witness :
    ∃ m, m < demoScenes.length ∧
      (GenCall.mk 2 "p2" "ref" (some "a")).sceneNumber = numAt demoScenes m ∧
      (GenCall.mk 2 "p2" "ref" (some "a")).prompt = promptAt demoScenes m ∧
      (0 < m → ∃ img,
        omLookup (step true demoScenes
          (step true demoScenes
            (step true demoScenes (initOState (some "ref"))
              (OEvent.startSequential (some "a") (some "b"))).1
            (OEvent.setTempSelected "a")).1
          (OEvent.confirmAndNext (some "c") (some "d"))).1.selectedImages
          (numAt demoScenes (m - 1)) = some img ∧
        (GenCall.mk 2 "p2" "ref" (some "a")).previousImage = some img) ∧
      (m = 0 → (GenCall.mk 2 "p2" "ref" (some "a")).previousImage = none) :=
  c4_sequential_ordering true demoScenes (by decide) _
    (Reachable.next _ _
      (Reachable.next _ _ (Reachable.init (some "ref")) (by decide))
      (by decide))
    (OEvent.confirmAndNext (some "c") (some "d")) (by decide) (by decide)
    [GenCall.mk 2 "p2" "ref" (some "a"), GenCall.mk 2 "p2" "ref" (some "a")]
    (by decide)
    (GenCall.mk 2 "p2" "ref" (some "a")) (by decide)

/-- Claim C5, counterexample: in per-scene/bulk generation (`handleGenerate`,
also the body of "generate all"), the two candidate calls are NOT issued as
one parallel batch: the handler awaits the first call before starting the
second, so the emission is two consecutive single-call batches, never a single
two-call batch. -/
theorem c5_counterexample :
    ¬ ∃ c1 c2 : GenCall,
      (step true demoScenes (initOState (some "ref"))
        (OEvent.generate 1 "p1" (some "a") (some "b"))).2 = [[c1, c2]] := by
  rintro ⟨c1, c2, h⟩
  simp [step, stepGenerate, imageCallsOnce, initOState] at h

/-- Claim C5 (amended): with the API key present and a reference image set,
the three sequential-mode handlers issue their two candidate calls as one
parallel batch of two (`Promise.all`), whereas the per-scene/bulk
`handleGenerate` issues them as two consecutive batches of one call each (the
second call starts only after the first is awaited).  In both shapes the two
results are collected and filtered together after both calls finished, before
any result is stored — there is no first-wins short-circuiting. -/
theorem c5_amended_call_structure (scenes : List SceneOverview) (s : OState)
    (r : String) (href : s.refImage = some r) (n : Nat) (prompt : String)
    (r1 r2 : Option String) :
    ((step true scenes s (OEvent.generate n prompt r1 r2)).2.map List.length =
      [1, 1]) ∧
    (∀ e, isSequentialEvent e = true →
      ∀ b ∈ (step true scenes s e).2, b.length = 2) := by
  constructor
  · simp [step, stepGenerate, imageCallsOnce, href]
  · intro e hseq b hb
    cases e with
    | refImageChange img => simp [isSequentialEvent] at hseq
    | generate n2 prompt2 q1 q2 => simp [isSequentialEvent] at hseq
    | selectImage n2 src => simp [isSequentialEvent] at hseq
    | setTempSelected src => simp [isSequentialEvent] at hseq
    | cancelSequential => simp [isSequentialEvent] at hseq
    | startSequential q1 q2 =>
        simp only [step, stepStartSequential, href, List.mem_singleton] at hb
        rw [hb]
        simp [imageCallsOnce]
    | confirmAndNext q1 q2 =>
        cases htemp : s.tempSelectedImage with
        | none => simp [step, stepConfirmAndNext, htemp] at hb
        | some img =>
            cases hcur : s.currentSequentialScene with
            | none => simp [step, stepConfirmAndNext, htemp, hcur] at hb
            | some c =>
                by_cases hlast : findSceneIdx scenes c = scenes.length - 1
                · simp [step, stepConfirmAndNext, htemp, hcur, hlast] at hb
                · simp only [step, stepConfirmAndNext, htemp, hcur, hlast,
                    if_neg, not_false_iff, List.mem_singleton] at hb
                  rw [hb, href]
                  simp [imageCallsOnce]
    | sequentialRegenerate q1 q2 =>
        cases hcur : s.currentSequentialScene with
        | none => simp [step, stepSequentialRegenerate, hcur] at hb
        | some c =>
            cases hload : s.isSequentialSceneLoading with
            | true => simp [step, stepSequentialRegenerate, hcur, hload] at hb
            | false =>
                simp only [step, stepSequentialRegenerate, hcur, hload,
                  Bool.false_eq_true, if_neg, not_false_iff,
                  List.mem_singleton] at hb
                rw [hb, href]
                simp [imageCallsOnce]

/-- Witness for the amended C5 at a concrete state: the bulk handler's
emission is two batches of one call; the sequential start handler's emission
is one batch of two calls. -/
theorem c5_amended_call_structure_witness :
    ((step true demoScenes (initOState (some "ref"))
      (OEvent.generate 1 "p1" (some "a") (some "b"))).2.map List.length =
      [1, 1]) ∧
    (∀ b ∈ (step true demoScenes (initOState (some "ref"))
      (OEvent.startSequential (some "a") (some "b"))).2, b.length = 2) :=
  ⟨(c5_amended_call_structure demoScenes (initOState (some "ref")) "ref" rfl
      1 "p1" (some "a") (some "b")).1,
   (c5_amended_call_structure demoScenes (initOState (some "ref")) "ref" rfl
      1 "p1" (some "a") (some "b")).2
     (OEvent.startSequential (some "a") (some "b")) (by decide)⟩

theorem promptVersionAt_missing (l : List (Option PromptVersion)) (k : Nat)
    (h : l.get? k = none ∨ l.get? k = some none) :
    promptVersionAt l k = missingPrompt := by
  rcases h with h | h <;>
  · show (match l.get? k with
      | some (some p) => p
      | _ => missingPrompt) = missingPrompt
    rw [h]

/-- Claim C6: the submit step synthesizes exactly one `StoryScene` per entry
of the structured-generation response (no entry is discarded), copying the
entry's scene number and story text; a missing variant slot (non-array field,
short array, or null element) is filled with the visible placeholder
`missingPrompt`, and by construction every synthesized scene holds exactly two
variants per axis (its variant fields are pairs, mirroring the TypeScript
tuple type). -/
theorem c6_scene_synthesis (now : Int) (raws : List RawScene) :
    (scenesWithState now raws).length = raws.length ∧
    ∀ i raw, raws.get? i = some raw →
      (scenesWithState now raws).get? i = some (sceneWithState now i raw) ∧
      (sceneWithState now i raw).scene_number = raw.scene_number ∧
      (sceneWithState now i raw).story_content = raw.story_content ∧
      ∀ k, k < 2 →
        (slotMissing raw.image_prompts k →
          imageVariant (sceneWithState now i raw) k = missingPrompt) ∧
        (slotMissing raw.image_to_video_prompts k →
          videoVariant (sceneWithState now i raw) k = missingPrompt) := by
  refine ⟨scenesWithStateAux_length now 0 raws, ?_⟩
  intro i raw h
  refine ⟨?_, rfl, rfl, ?_⟩
  · rw [scenesWithState, scenesWithStateAux_get?, h]
    simp
  · intro k hk
    interval_cases k
    · exact ⟨fun hm => promptVersionAt_missing _ _ hm,
        fun hm => promptVersionAt_missing _ _ hm⟩
    · exact ⟨fun hm => promptVersionAt_missing _ _ hm,
        fun hm => promptVersionAt_missing _ _ hm⟩

/-- Witness for C6 at a concrete response: `demoRaw` has one image variant and
a non-array video field; the synthesized scene keeps the entry (length 1),
copies scene number 7 and story text, and fills image slot 1 and video slot 0
with the placeholder. -/
theorem c6_scene_synthesis_witness :
    (scenesWithState 0 [demoRaw]).length = [demoRaw].length ∧
    (scenesWithState 0 [demoRaw]).get? 0 = some (sceneWithState 0 0 demoRaw) ∧
    (sceneWithState 0 0 demoRaw).scene_number = demoRaw.scene_number ∧
    (sceneWithState 0 0 demoRaw).story_content = demoRaw.story_content ∧
    imageVariant (sceneWithState 0 0 demoRaw) 1 = missingPrompt ∧
    videoVariant (sceneWithState 0 0 demoRaw) 0 = missingPrompt :=
  have h := c6_scene_synthesis 0 [demoRaw]
  ⟨h.1, (h.2 0 demoRaw rfl).1, (h.2 0 demoRaw rfl).2.1, (h.2 0 demoRaw rfl).2.2.1,
   ((h.2 0 demoRaw rfl).2.2.2 1 (by decide)).1 (Or.inl rfl),
   ((h.2 0 demoRaw rfl).2.2.2 0 (by decide)).2 (Or.inl rfl)⟩

/-- Claim C7: (1) over all picker-reachable scene lists — created by the
synthesis (indices 0) and mutated only by `handleSelectionChange`, whose index
argument has type `0 | 1` — every scene's two selection indices stay in
`{0,1}`; (2) a selection toggle keeps the list length, leaves every scene at a
position other than `currentSceneIndex` untouched, and maps the current scene
through `updateSelection`; (3) `updateSelection` changes only the targeted
axis's selection index: id, scene number, story text, both prompt pairs and
the other axis's index are unchanged. -/
theorem c7_picker_selection :
    (∀ scenes, PickerReachable scenes →
      ∀ sc ∈ scenes,
        (sc.selected_image_prompt_index = 0 ∨ sc.selected_image_prompt_index = 1) ∧
        (sc.selected_video_prompt_index = 0 ∨ sc.selected_video_prompt_index = 1)) ∧
    (∀ scenes cur ptype index,
      (handleSelectionChange scenes cur ptype index).length = scenes.length ∧
      (∀ i, i ≠ cur →
        (handleSelectionChange scenes cur ptype index).get? i = scenes.get? i) ∧
      (∀ sc, scenes.get? cur = some sc →
        (handleSelectionChange scenes cur ptype index).get? cur =
          some (updateSelection ptype index sc))) ∧
    (∀ ptype index sc,
      (updateSelection ptype index sc).id = sc.id ∧
      (updateSelection ptype index sc).scene_number = sc.scene_number ∧
      (updateSelection ptype index sc).story_content = sc.story_content ∧
      (updateSelection ptype index sc).image_prompts = sc.image_prompts ∧
      (updateSelection ptype index sc).image_to_video_prompts =
        sc.image_to_video_prompts ∧
      (ptype = PromptType.image →
        (updateSelection ptype index sc).selected_video_prompt_index =
          sc.selected_video_prompt_index ∧
        (updateSelection ptype index sc).selected_image_prompt_index = index) ∧
      (ptype = PromptType.video →
        (updateSelection ptype index sc).selected_image_prompt_index =
          sc.selected_image_prompt_index ∧
        (updateSelection ptype index sc).selected_video_prompt_index = index)) := by
  refine ⟨?_, ?_, ?_⟩
  · intro scenes hreach
    induction hreach with
    | init now raws =>
        intro sc hsc
        obtain ⟨h1, h2⟩ := scenesWithStateAux_sel now 0 raws sc hsc
        exact ⟨Or.inl h1, Or.inl h2⟩
    | select scenes cur ptype index hr hv ih =>
        intro sc hsc
        obtain ⟨s0, hs0, hor⟩ :=
          handleSelectionChangeAux_mem cur ptype index 0 scenes sc hsc
        rcases hor with h | h
        · rw [h]; exact ih s0 hs0
        · rw [h]; exact updateSelection_sel_range ptype index s0 hv (ih s0 hs0)
  · intro scenes cur ptype index
    refine ⟨handleSelectionChangeAux_length cur ptype index 0 scenes, ?_, ?_⟩
    · intro i hi
      rw [handleSelectionChange, handleSelectionChangeAux_get?]
      have hnc : ¬ (0 + i = cur) := by simpa using hi
      cases h : scenes.get? i with
      | none => rfl
      | some sc =>
          show some (if 0 + i = cur then updateSelection ptype index sc else sc) =
            some sc
          rw [if_neg hnc]
    · intro sc h
      rw [handleSelectionChange, handleSelectionChangeAux_get?, h]
      simp
  · intro ptype index sc
    cases ptype <;> simp [updateSelection]

/-- Witness for C7: after one toggle (image axis, index 1, scene 0) on a
freshly synthesized two-scene list, every scene's selection indices are still
in `{0,1}`. -/
theorem c7_picker_selection_witness :
    ∀ sc ∈ handleSelectionChange (scenesWithState 0 [demoRawFull, demoRaw]) 0
        PromptType.image 1,
      (sc.selected_image_prompt_index = 0 ∨ sc.selected_image_prompt_index = 1) ∧
      (sc.selected_video_prompt_index = 0 ∨ sc.selected_video_prompt_index = 1) :=
  c7_picker_selection.1 _
    (PickerReachable.select _ 0 PromptType.image 1
      (PickerReachable.init 0 [demoRawFull, demoRaw]) (Or.inr rfl))

/-- Claim C8, counterexample: a 100-byte `image/webp` file passes the
validation and reaches the `FileReader`/state-update path, although the
claim's whitelist (PNG, JPEG, GIF) excludes its MIME type — the code only
checks that the type starts with `image/` (the `accept` attribute of the file
input merely pre-filters the picker dialog and does not constrain drag-drop). -/
theorem c8_counterexample :
    handleFileAccepts { mimeType := "image/webp", size := 100 } = true ∧
    ¬ ("image/webp" ∈ ["image/png", "image/jpeg", "image/gif"]) ∧
    (handleFile { mimeType := "image/webp", size := 100 }
      { referenceImage := none, hasReferenceImage := false, error := none }
      (some "data")).referenceImage = some "data" := by
  refine ⟨?_, ?_, ?_⟩ <;> decide

/-- Claim C8 (amended): an upload is accepted iff its MIME type starts with
`image/` (not only PNG/JPEG/GIF) and its size is at most 10MB; a rejected file
changes neither the stored reference image nor the has-reference flag and only
sets the matching validation error (invalid-image or file-size), before any
further processing — `handleFile` contains no network call in any branch; in
particular a too-large file (e.g. 11MB) of image type is rejected with exactly
the file-size error.  The overview's change-image handler applies the same
acceptance condition. -/
theorem c8_amended_upload_validation (f : UploadFile) (s : IntakeState)
    (readResult : Option String) :
    (handleFileAccepts f = true ↔
      (stringStartsWith f.mimeType "image/" = true ∧
        f.size ≤ 10 * 1024 * 1024)) ∧
    (handleFileAccepts f = false →
      (handleFile f s readResult).referenceImage = s.referenceImage ∧
      (handleFile f s readResult).hasReferenceImage = s.hasReferenceImage ∧
      ∃ err, (handleFile f s readResult).error = some err ∧
        (err = FileError.invalidImage ∨ err = FileError.fileSize)) ∧
    (stringStartsWith f.mimeType "image/" = true → f.size > 10 * 1024 * 1024 →
      handleFile f s readResult = { s with error := some FileError.fileSize }) ∧
    overviewFileChangeAccepts f = handleFileAccepts f := by
  refine ⟨?_, ?_, ?_, rfl⟩
  · simp [handleFileAccepts, Bool.and_eq_true, decide_eq_true_eq]
  · intro h
    by_cases hsw : stringStartsWith f.mimeType "image/" = true
    · have hsz : ¬ (f.size ≤ 10 * 1024 * 1024) := by
        intro hle
        rw [handleFileAccepts] at h
        simp [hsw, hle] at h
      have hgt : f.size > 10 * 1024 * 1024 := by omega
      refine ⟨?_, ?_, FileError.fileSize, ?_, Or.inr rfl⟩ <;>
        simp [handleFile, hsw, hgt]
    · refine ⟨?_, ?_, FileError.invalidImage, ?_, Or.inl rfl⟩ <;>
        simp [handleFile, hsw]
  · intro hsw hgt
    simp [handleFile, hsw, hgt]

/-- Witness for the amended C8: an 11MB PNG upload is rejected with the
file-size error and an untouched configuration. -/
theorem c8_amended_upload_validation_witness :
    handleFileAccepts { mimeType := "image/png", size := 11 * 1024 * 1024 } = false ∧
    handleFile { mimeType := "image/png", size := 11 * 1024 * 1024 }
      { referenceImage := none, hasReferenceImage := false, error := none }
      none =
      { referenceImage := none, hasReferenceImage := false,
        error := some FileError.fileSize } :=
  ⟨by decide,
   (c8_amended_upload_validation
      { mimeType := "image/png", size := 11 * 1024 * 1024 }
      { referenceImage := none, hasReferenceImage := false, error := none }
      none).2.2.1 (by decide) (by decide)⟩

/-- Claim C9: the picker's finish action projects the scene list into three
parallel arrays of the same length as the scene list, whose i-th elements are
scene i's image variant at its selected image index, scene i's video variant
at its selected video index, and scene i's story text; these are what
`onFinishSelection` hands to the controller. -/
theorem c9_finish_projections (scenes : List StoryScene) :
    (finalImagePrompts scenes).length = scenes.length ∧
    (finalVideoPrompts scenes).length = scenes.length ∧
    (finalStoryContents scenes).length = scenes.length ∧
    ∀ i sc, scenes.get? i = some sc →
      (finalImagePrompts scenes).get? i =
        some (pairGet sc.image_prompts sc.selected_image_prompt_index) ∧
      (finalVideoPrompts scenes).get? i =
        some (pairGet sc.image_to_video_prompts sc.selected_video_prompt_index) ∧
      (finalStoryContents scenes).get? i = some sc.story_content := by
  refine ⟨by simp [finalImagePrompts], by simp [finalVideoPrompts],
    by simp [finalStoryContents], ?_⟩
  intro i sc h
  rw [List.get?_eq_getElem?] at h
  refine ⟨?_, ?_, ?_⟩
  · rw [finalImagePrompts, List.get?_eq_getElem?, List.getElem?_map, h]
    rfl
  · rw [finalVideoPrompts, List.get?_eq_getElem?, List.getElem?_map, h]
    rfl
  · rw [finalStoryContents, List.get?_eq_getElem?, List.getElem?_map, h]
    rfl

/-- Witness for C9 at a concrete one-scene list with selected indices 1 and 0. -/
theorem c9_finish_projections_witness :
    (finalImagePrompts [demoStoryScene]).get? 0 =
      some (pairGet demoStoryScene.image_prompts
        demoStoryScene.selected_image_prompt_index) ∧
    (finalVideoPrompts [demoStoryScene]).get? 0 =
      some (pairGet demoStoryScene.image_to_video_prompts
        demoStoryScene.selected_video_prompt_index) ∧
    (finalStoryContents [demoStoryScene]).get? 0 =
      some demoStoryScene.story_content :=
  (c9_finish_projections [demoStoryScene]).2.2.2 0 demoStoryScene rfl

/-- Claim C10: the overview entries are renumbered positionally: the entry
built from position i of the projected arrays gets `sceneNumber = i + 1`
regardless of the `scene_number` the structured response assigned to that
scene (the scene list here is arbitrary, including its `scene_number` fields,
which `handleFinishSelection` never reads); consequently, in every reachable
overview state over those entries, every file name emitted by
`handleDownloadAll` is `StorySpark-Scene-<j+1>.png` for some position `j` of
the scene list. -/
theorem c10_positional_numbering (apiKey : Bool) (scenes : List StoryScene)
    (i : Nat) (sc : StoryScene) (h : scenes.get? i = some sc) :
    (∃ e, (overviewOf scenes).get? i = some e ∧ e.sceneNumber = i + 1) ∧
    (∀ s, Reachable apiKey (overviewOf scenes) s →
      ∀ nm ∈ downloadAllFileNames s.selectedImages,
        ∃ j, j < scenes.length ∧ nm = downloadFileName (j + 1)) := by
  have hlen : (finalImagePrompts scenes).length = scenes.length := by
    simp [finalImagePrompts]
  constructor
  · rw [List.get?_eq_getElem?] at h
    have hip : (finalImagePrompts scenes).get? i =
        some (pairGet sc.image_prompts sc.selected_image_prompt_index) := by
      rw [finalImagePrompts, List.get?_eq_getElem?, List.getElem?_map, h]
      rfl
    rw [overviewOf, handleFinishSelection, handleFinishSelectionAux_get?, hip]
    refine ⟨_, rfl, ?_⟩
    show 0 + i + 1 = i + 1
    omega
  · intro s hr nm hnm
    have hnd2 : (sceneNumbers (overviewOf scenes)).Nodup := by
      rw [sceneNumbers, overviewOf, handleFinishSelection]
      exact handleFinishSelectionAux_number_nodup _ _ 0 _
    obtain ⟨⟨hI1, hI2, hI3⟩, -⟩ := reachable_oinv apiKey (overviewOf scenes) hnd2 s hr
    obtain ⟨entry, hentry, hnm2⟩ := List.mem_map.mp hnm
    have hkey : entry.1 ∈ omKeys s.selectedImages := List.mem_map_of_mem _ hentry
    have hmem := hI2 entry.1 hkey
    rw [sceneNumbers, overviewOf, handleFinishSelection] at hmem
    obtain ⟨j, hj, hjn⟩ := handleFinishSelectionAux_number_mem _ _ 0 _ _ hmem
    refine ⟨j, ?_, ?_⟩
    · rw [← hlen]; exact hj
    · have hj1 : entry.1 = j + 1 := by omega
      rw [← hnm2, hj1]

/-- Witness for C10: a one-scene list whose response-assigned scene number is
9 still yields overview entry number 1 (position 0 + 1). -/
theorem c10_positional_numbering_witness :
    (∃ e, (overviewOf [demoStoryScene]).get? 0 = some e ∧ e.sceneNumber = 0 + 1) ∧
    (∀ s, Reachable true (overviewOf [demoStoryScene]) s →
      ∀ nm ∈ downloadAllFileNames s.selectedImages,
        ∃ j, j < [demoStoryScene].length ∧ nm = downloadFileName (j + 1)) :=
  c10_positional_numbering true [demoStoryScene] 0 demoStoryScene rfl
